import Mathlib

/-!
Verification of the currency-conversion engine
(`src/engine/src/api/currency.py`).

Amounts and exchange rates are modelled as exact rationals.  Python's
`round(x, n)` (round to the closest multiple of `10 ^ (-n)`, ties to the
even choice) is modelled by `roundTo`.  The rate dictionary
`EXCHANGE_RATES` is modelled as an association list of string keys, with
dictionary access returning an `Option`; a missing key corresponds to
Python's `KeyError`.  Fallible functions return `Except`.
-/

/-- The `Currency` string enum of supported currency codes. -/
inductive Currency where
  | USD
  | EUR
  | GBP
  | JPY
  | CAD
  | AUD
  | CHF
  | CNY
deriving DecidableEq

/-- The `.value` of an enum member: its canonical uppercase code string. -/
def Currency.value : Currency → String
  | .USD => "USD"
  | .EUR => "EUR"
  | .GBP => "GBP"
  | .JPY => "JPY"
  | .CAD => "CAD"
  | .AUD => "AUD"
  | .CHF => "CHF"
  | .CNY => "CNY"

/-- Enum construction by value, `Currency(s)`: succeeds exactly when `s`
is the value of some member, as Python's by-value enum lookup does. -/
def Currency.fromString : String → Option Currency
  | "USD" => some .USD
  | "EUR" => some .EUR
  | "GBP" => some .GBP
  | "JPY" => some .JPY
  | "CAD" => some .CAD
  | "AUD" => some .AUD
  | "CHF" => some .CHF
  | "CNY" => some .CNY
  | _ => none

/-- The eight supported currencies, in source declaration order. -/
def Currency.all : List Currency :=
  [.USD, .EUR, .GBP, .JPY, .CAD, .AUD, .CHF, .CNY]

/-- Python's `str.upper`, acting characterwise (all code strings involved
are ASCII). -/
def pyUpper (s : String) : String :=
  ⟨s.data.map Char.toUpper⟩

/-- The mock exchange-rate dictionary, in source order: units of each
currency per one USD. -/
def EXCHANGE_RATES : List (String × ℚ) :=
  [("USD", 1.0), ("EUR", 0.85), ("GBP", 0.73), ("JPY", 110.0),
   ("CAD", 1.25), ("AUD", 1.35), ("CHF", 0.92), ("CNY", 6.45)]

/-- Dictionary access `EXCHANGE_RATES[k]`; `none` models a `KeyError`. -/
def ratesLookup (k : String) : Option ℚ :=
  (EXCHANGE_RATES.find? (fun p => p.1 == k)).map (fun p => p.2)

/-- The rate of a supported currency, as recorded in the table. -/
def rate : Currency → ℚ
  | .USD => 1.0
  | .EUR => 0.85
  | .GBP => 0.73
  | .JPY => 110.0
  | .CAD => 1.25
  | .AUD => 1.35
  | .CHF => 0.92
  | .CNY => 6.45

/-- Round a rational to the nearest integer, ties to the even integer:
the rounding Python's `round` applies. -/
def roundHalfToEven (x : ℚ) : ℤ :=
  if x - ⌊x⌋ < 1 / 2 then ⌊x⌋
  else if 1 / 2 < x - ⌊x⌋ then ⌊x⌋ + 1
  else if ⌊x⌋ % 2 = 0 then ⌊x⌋ else ⌊x⌋ + 1

/-- Python's `round(x, ndigits)`: round to the closest multiple of
`10 ^ (-ndigits)`, ties to even. -/
def roundTo (ndigits : ℕ) (x : ℚ) : ℚ :=
  (roundHalfToEven (x * 10 ^ ndigits) : ℚ) / 10 ^ ndigits

/-- A Python exception raised by the conversion code. -/
inductive PyError where
  | valueError (msg : String)
  | keyError (key : String)

/-- The function `convert_currency`: reject negative amounts, return the
amount unchanged when source and target coincide, otherwise convert
through the USD pivot and round to 2 decimal places. -/
def convert_currency (amount : ℚ) (from_currency to_currency : Currency) :
    Except PyError ℚ :=
  if amount < 0 then .error (.valueError "Amount cannot be negative")
  else if from_currency = to_currency then .ok amount
  else
    match ratesLookup from_currency.value with
    | none => .error (.keyError from_currency.value)
    | some rf =>
      match ratesLookup to_currency.value with
      | none => .error (.keyError to_currency.value)
      | some rt => .ok (roundTo 2 (amount / rf * rt))

/-- The request body of the `/convert` endpoint. -/
structure ConvertRequest where
  amount : ℚ
  from_currency : String
  to_currency : String

/-- The response body of the `/convert` endpoint. -/
structure ConvertResponse where
  converted_amount : ℚ
  from_currency : String
  to_currency : String
  exchange_rate : ℚ

/-- A failure of the endpoint: either a raised `HTTPException` with a
status code and a detail message, or an exception no handler catches. -/
inductive HTTPFailure where
  | httpException (status : ℕ) (detail : String)
  | uncaught (e : PyError)

/-- The `/convert` endpoint handler `convert_endpoint`: uppercase the two
codes and construct `Currency` members (a failure of either becomes a
400 "Invalid currency code"), run `convert_currency` (a `ValueError`
becomes a 400 carrying its message; a `KeyError` escapes uncaught), then
attach the display exchange rate rounded to 4 decimal places. -/
def convert_endpoint (payload : ConvertRequest) :
    Except HTTPFailure ConvertResponse :=
  match Currency.fromString (pyUpper payload.from_currency),
        Currency.fromString (pyUpper payload.to_currency) with
  | some from_curr, some to_curr =>
    match convert_currency payload.amount from_curr to_curr with
    | .error (.valueError msg) => .error (.httpException 400 msg)
    | .error e => .error (.uncaught e)
    | .ok converted_amount =>
      match ratesLookup to_curr.value with
      | none => .error (.uncaught (.keyError to_curr.value))
      | some rt =>
        match ratesLookup from_curr.value with
        | none => .error (.uncaught (.keyError from_curr.value))
        | some rf =>
          .ok ⟨converted_amount, from_curr.value, to_curr.value,
               roundTo 4 (rt / rf)⟩
  | _, _ => .error (.httpException 400 "Invalid currency code")

/-! ### Basic facts about the rate table and the enum -/

lemma ratesLookup_value (c : Currency) :
    ratesLookup c.value = some (rate c) := by
  cases c <;> rfl

lemma rate_pos (c : Currency) : 0 < rate c := by
  cases c <;> norm_num [rate]

lemma fromString_pyUpper_value (c : Currency) :
    Currency.fromString (pyUpper c.value) = some c := by
  cases c <;> rfl

/-! ### Evaluation lemmas for `convert_currency` -/

lemma convert_currency_neg (x : ℚ) (a b : Currency) (hx : x < 0) :
    convert_currency x a b = .error (.valueError "Amount cannot be negative") := by
  simp [convert_currency, hx]

lemma convert_currency_self (x : ℚ) (a : Currency) (hx : ¬ x < 0) :
    convert_currency x a a = .ok x := by
  simp [convert_currency, hx]

lemma convert_currency_eval (x : ℚ) (a b : Currency) (hx : ¬ x < 0)
    (hab : a ≠ b) :
    convert_currency x a b = .ok (roundTo 2 (x / rate a * rate b)) := by
  simp [convert_currency, hx, hab, ratesLookup_value]

/-! ### Evaluating the rounding function on concrete and symbolic input -/

lemma roundHalfToEven_eq_down (x : ℚ) (m : ℤ) (h1 : (m : ℚ) ≤ x)
    (h2 : x - m < 1 / 2) : roundHalfToEven x = m := by
  have hf : ⌊x⌋ = m := Int.floor_eq_iff.mpr ⟨h1, by linarith⟩
  unfold roundHalfToEven
  simp only [hf]
  rw [if_pos h2]

lemma roundHalfToEven_eq_up (x : ℚ) (m : ℤ) (h1 : 1 / 2 < x - m)
    (h2 : x < m + 1) : roundHalfToEven x = m + 1 := by
  have hm : (m : ℚ) ≤ x := by linarith
  have hf : ⌊x⌋ = m := Int.floor_eq_iff.mpr ⟨hm, by linarith⟩
  unfold roundHalfToEven
  simp only [hf]
  rw [if_neg (by linarith), if_pos h1]

lemma roundTo_eq_down (n : ℕ) (x : ℚ) (m : ℤ) (h1 : (m : ℚ) ≤ x * 10 ^ n)
    (h2 : x * 10 ^ n - m < 1 / 2) : roundTo n x = (m : ℚ) / 10 ^ n := by
  unfold roundTo
  rw [roundHalfToEven_eq_down (x * 10 ^ n) m h1 h2]

lemma roundTo_eq_up (n : ℕ) (x : ℚ) (m : ℤ) (h1 : 1 / 2 < x * 10 ^ n - m)
    (h2 : x * 10 ^ n < m + 1) : roundTo n x = ((m : ℚ) + 1) / 10 ^ n := by
  unfold roundTo
  rw [roundHalfToEven_eq_up (x * 10 ^ n) m h1 h2]
  push_cast
  ring

lemma abs_roundHalfToEven_sub_le (x : ℚ) :
    |(roundHalfToEven x : ℚ) - x| ≤ 1 / 2 := by
  have h0 : (⌊x⌋ : ℚ) ≤ x := Int.floor_le x
  have h1 : x < ⌊x⌋ + 1 := Int.lt_floor_add_one x
  unfold roundHalfToEven
  split_ifs with hc1 hc2 hc3 <;> rw [abs_le] <;> push_cast <;>
    constructor <;> linarith

lemma abs_roundTo_sub_le (n : ℕ) (x : ℚ) :
    |roundTo n x - x| ≤ 1 / (2 * 10 ^ n) := by
  have h := abs_roundHalfToEven_sub_le (x * 10 ^ n)
  have hp : (0 : ℚ) < 10 ^ n := by positivity
  unfold roundTo
  have he : (roundHalfToEven (x * 10 ^ n) : ℚ) / 10 ^ n - x =
      ((roundHalfToEven (x * 10 ^ n) : ℚ) - x * 10 ^ n) / 10 ^ n := by
    field_simp
    ring
  rw [he, abs_div, abs_of_pos hp,
    show (1 : ℚ) / (2 * 10 ^ n) = (1 / 2) / 10 ^ n by ring]
  gcongr

/-! ### Concrete rounding computations -/

lemma roundTo_100_EUR_USD : roundTo 2 (100 / rate .EUR * rate .USD) = 117.65 := by
  rw [roundTo_eq_up 2 _ 11764 (by norm_num [rate]) (by norm_num [rate])]
  norm_num

lemma roundTo_100_USD_EUR : roundTo 2 (100 / rate .USD * rate .EUR) = 85 := by
  rw [roundTo_eq_down 2 _ 8500 (by norm_num [rate]) (by norm_num [rate])]
  norm_num

lemma roundTo_50_EUR_USD : roundTo 2 (50 / rate .EUR * rate .USD) = 58.82 := by
  rw [roundTo_eq_down 2 _ 5882 (by norm_num [rate]) (by norm_num [rate])]
  norm_num

lemma roundTo_rate_EUR_USD : roundTo 4 (rate .USD / rate .EUR) = 1.1765 := by
  rw [roundTo_eq_up 4 _ 11764 (by norm_num [rate]) (by norm_num [rate])]
  norm_num

lemma roundTo_rate_USD_EUR : roundTo 4 (rate .EUR / rate .USD) = 0.85 := by
  rw [roundTo_eq_down 4 _ 8500 (by norm_num [rate]) (by norm_num [rate])]
  norm_num

lemma roundTo_1_JPY_GBP : roundTo 2 (1 / rate .JPY * rate .GBP) = 0.01 := by
  rw [roundTo_eq_up 2 _ 0 (by norm_num [rate]) (by norm_num [rate])]
  norm_num

lemma roundTo_001_GBP_JPY : roundTo 2 (0.01 / rate .GBP * rate .JPY) = 1.51 := by
  rw [roundTo_eq_up 2 _ 150 (by norm_num [rate]) (by norm_num [rate])]
  norm_num

/-! ### Evaluation lemmas for the endpoint -/

lemma convert_endpoint_eval (x : ℚ) (s t : String) (a b : Currency)
    (hx : ¬ x < 0) (hs : Currency.fromString (pyUpper s) = some a)
    (ht : Currency.fromString (pyUpper t) = some b) :
    convert_endpoint ⟨x, s, t⟩ =
      .ok ⟨if a = b then x else roundTo 2 (x / rate a * rate b),
           a.value, b.value, roundTo 4 (rate b / rate a)⟩ := by
  by_cases hab : a = b
  · subst hab
    simp [convert_endpoint, hs, ht, convert_currency_self x a hx,
      ratesLookup_value]
  · simp [convert_endpoint, hs, ht, convert_currency_eval x a b hx hab,
      ratesLookup_value, hab]

lemma convert_endpoint_ok_nonneg (x : ℚ) (s t : String) (r : ConvertResponse)
    (h : convert_endpoint ⟨x, s, t⟩ = .ok r) : ¬ x < 0 := by
  intro hx
  rcases hcs : Currency.fromString (pyUpper s) with _ | a
  · simp [convert_endpoint, hcs] at h
  · rcases hct : Currency.fromString (pyUpper t) with _ | b
    · simp [convert_endpoint, hcs, hct] at h
    · simp [convert_endpoint, hcs, hct, convert_currency_neg x a b hx] at h

/-! ### Claims -/

/-- C1: For every amount at least 0 and every pair of distinct supported
currency codes, `convert_currency` returns the amount divided by the
source rate, multiplied by the target rate, rounded to 2 decimal places
with round-half-to-even rounding. -/
theorem convert_distinct_is_rounded_pivot (x : ℚ) (a b : Currency)
    (hx : 0 ≤ x) (hab : a ≠ b) :
    convert_currency x a b = .ok (roundTo 2 (x / rate a * rate b)) :=
  convert_currency_eval x a b (not_lt.mpr hx) hab

theorem convert_distinct_is_rounded_pivot_witness :
    convert_currency 100 .EUR .USD =
      .ok (roundTo 2 (100 / rate .EUR * rate .USD)) :=
  convert_distinct_is_rounded_pivot 100 .EUR .USD (by norm_num) (by decide)

/-- C2: For every supported code `c` and amount at least 0, converting
from `c` to `c` returns the amount exactly, with no rounding applied. -/
theorem convert_same_currency_exact (c : Currency) (x : ℚ) (hx : 0 ≤ x) :
    convert_currency x c c = .ok x :=
  convert_currency_self x c (not_lt.mpr hx)

theorem convert_same_currency_exact_witness :
    convert_currency 10.999 .USD .USD = .ok 10.999 ∧ (10.999 : ℚ) ≠ 11 :=
  ⟨convert_same_currency_exact .USD 10.999 (by norm_num), by norm_num⟩

/-- C3: `convert_currency` fails if and only if the amount is negative,
for all supported code pairs including equal ones (the negative-amount
check precedes the equal-currency short-circuit), the failure is the
`ValueError` "Amount cannot be negative", and in particular converting
-1 from USD to EUR so fails. -/
theorem convert_error_iff_negative :
    (∀ (x : ℚ) (a b : Currency),
      (∃ e, convert_currency x a b = .error e) ↔ x < 0) ∧
    (∀ (x : ℚ) (a b : Currency), x < 0 →
      convert_currency x a b =
        .error (.valueError "Amount cannot be negative")) ∧
    convert_currency (-1) .USD .EUR =
      .error (.valueError "Amount cannot be negative") := by
  refine ⟨fun x a b => ⟨?_, fun hx => ⟨_, convert_currency_neg x a b hx⟩⟩,
    fun x a b hx => convert_currency_neg x a b hx,
    convert_currency_neg (-1) .USD .EUR (by norm_num)⟩
  rintro ⟨e, he⟩
  by_contra hx
  by_cases hab : a = b
  · subst hab
    rw [convert_currency_self x a hx] at he
    exact Except.noConfusion he
  · rw [convert_currency_eval x a b hx hab] at he
    exact Except.noConfusion he

theorem convert_error_iff_negative_witness :
    convert_currency (-1) .EUR .GBP =
      .error (.valueError "Amount cannot be negative") :=
  convert_error_iff_negative.2.1 (-1) .EUR .GBP (by norm_num)

/-- C4 (counterexample): the rejection of an unsupported code carries the
fixed detail "Invalid currency code", which does not contain the
offending code "XXX", so the message does not identify it. -/
theorem unsupported_code_message_counterexample :
    convert_endpoint ⟨100, "XXX", "USD"⟩ =
      .error (.httpException 400 "Invalid currency code") ∧
    ¬ ("XXX".data <:+: "Invalid currency code".data) :=
  ⟨rfl, by decide⟩

/-- C4 (amended): whenever either code, after uppercasing, is not a
supported currency, the endpoint fails with a 400 error carrying the
fixed message "Invalid currency code" (which does not name the offending
code); in particular converting 100 from "XXX" to "USD" so fails. -/
theorem unsupported_code_rejected (x : ℚ) (s t : String)
    (h : Currency.fromString (pyUpper s) = none ∨
      Currency.fromString (pyUpper t) = none) :
    convert_endpoint ⟨x, s, t⟩ =
      .error (.httpException 400 "Invalid currency code") := by
  rcases h with h | h
  · rcases ht : Currency.fromString (pyUpper t) with _ | b <;>
      simp [convert_endpoint, h, ht]
  · rcases hs : Currency.fromString (pyUpper s) with _ | a <;>
      simp [convert_endpoint, h, hs]

theorem unsupported_code_rejected_witness :
    convert_endpoint ⟨100, "XXX", "USD"⟩ =
      .error (.httpException 400 "Invalid currency code") :=
  unsupported_code_rejected 100 "XXX" "USD" (Or.inl rfl)

/-- C5: every successful response for a pair of supported codes carries
as exchange rate the target rate divided by the source rate rounded to
4 decimal places, and two successful responses for the same pair but
different amounts carry the same exchange rate. -/
theorem exchange_rate_display (x y : ℚ) (a b : Currency)
    (r r2 : ConvertResponse)
    (h1 : convert_endpoint ⟨x, a.value, b.value⟩ = .ok r)
    (h2 : convert_endpoint ⟨y, a.value, b.value⟩ = .ok r2) :
    r.exchange_rate = roundTo 4 (rate b / rate a) ∧
    r2.exchange_rate = r.exchange_rate := by
  have hx := convert_endpoint_ok_nonneg x a.value b.value r h1
  have hy := convert_endpoint_ok_nonneg y a.value b.value r2 h2
  rw [convert_endpoint_eval x a.value b.value a b hx
    (fromString_pyUpper_value a) (fromString_pyUpper_value b)] at h1
  rw [convert_endpoint_eval y a.value b.value a b hy
    (fromString_pyUpper_value a) (fromString_pyUpper_value b)] at h2
  have e1 := Except.ok.inj h1
  have e2 := Except.ok.inj h2
  subst e1
  subst e2
  exact ⟨rfl, rfl⟩

theorem exchange_rate_display_witness :
    (ConvertResponse.mk 117.65 "EUR" "USD" 1.1765).exchange_rate =
      roundTo 4 (rate .USD / rate .EUR) ∧
    (ConvertResponse.mk 58.82 "EUR" "USD" 1.1765).exchange_rate =
      (ConvertResponse.mk 117.65 "EUR" "USD" 1.1765).exchange_rate :=
  exchange_rate_display 100 50 .EUR .USD _ _
    (by
      rw [convert_endpoint_eval 100 (Currency.value .EUR)
        (Currency.value .USD) .EUR .USD (by norm_num)
        (fromString_pyUpper_value .EUR) (fromString_pyUpper_value .USD)]
      simp [Currency.value, roundTo_100_EUR_USD, roundTo_rate_EUR_USD])
    (by
      rw [convert_endpoint_eval 50 (Currency.value .EUR)
        (Currency.value .USD) .EUR .USD (by norm_num)
        (fromString_pyUpper_value .EUR) (fromString_pyUpper_value .USD)]
      simp [Currency.value, roundTo_50_EUR_USD, roundTo_rate_EUR_USD])

/-- C6: the rate table is exactly the fixed constant mapping of the
source, keyed by exactly the eight supported codes with no duplicate
keys; every supported code looks up to its rate, every rate is strictly
positive, and USD maps to 1. -/
theorem rate_table_spec :
    EXCHANGE_RATES =
      [("USD", 1), ("EUR", 17 / 20), ("GBP", 73 / 100), ("JPY", 110),
       ("CAD", 5 / 4), ("AUD", 27 / 20), ("CHF", 23 / 25),
       ("CNY", 129 / 20)] ∧
    EXCHANGE_RATES.map Prod.fst = Currency.all.map Currency.value ∧
    (EXCHANGE_RATES.map Prod.fst).Nodup ∧
    (∀ c : Currency, c ∈ Currency.all) ∧
    (∀ c : Currency, ratesLookup c.value = some (rate c)) ∧
    (∀ c : Currency, 0 < rate c) ∧
    rate .USD = 1 :=
  ⟨by norm_num [EXCHANGE_RATES], rfl, by decide,
   fun c => by cases c <;> decide, ratesLookup_value, rate_pos,
   by norm_num [rate]⟩

/-- C7: currency codes are canonicalized to uppercase: whenever the two
request codes uppercase to supported codes, the endpoint succeeds with
the same response as the request carrying the canonical uppercase codes,
and the response echoes the canonical codes. -/
theorem case_insensitive_codes (x : ℚ) (s t : String) (a b : Currency)
    (hx : 0 ≤ x) (hs : Currency.fromString (pyUpper s) = some a)
    (ht : Currency.fromString (pyUpper t) = some b) :
    ∃ r, convert_endpoint ⟨x, s, t⟩ = .ok r ∧
      convert_endpoint ⟨x, a.value, b.value⟩ = .ok r ∧
      r.from_currency = a.value ∧ r.to_currency = b.value :=
  ⟨⟨if a = b then x else roundTo 2 (x / rate a * rate b), a.value, b.value,
    roundTo 4 (rate b / rate a)⟩,
   convert_endpoint_eval x s t a b (not_lt.mpr hx) hs ht,
   convert_endpoint_eval x a.value b.value a b (not_lt.mpr hx)
     (fromString_pyUpper_value a) (fromString_pyUpper_value b),
   rfl, rfl⟩

theorem case_insensitive_codes_witness :
    ∃ r, convert_endpoint ⟨1, "usd", "eur"⟩ = .ok r ∧
      convert_endpoint ⟨1, (Currency.USD).value, (Currency.EUR).value⟩ =
        .ok r ∧
      r.from_currency = (Currency.USD).value ∧
      r.to_currency = (Currency.EUR).value :=
  case_insensitive_codes 1 "usd" "eur" .USD .EUR (by norm_num) rfl rfl

/-- C8 (counterexample): converting 1 JPY to GBP yields 0.01, converting
that back yields 1.51, and the round-trip error 0.51 exceeds the claimed
0.02 tolerance. -/
theorem round_trip_counterexample :
    convert_currency 1 .JPY .GBP = .ok 0.01 ∧
    convert_currency 0.01 .GBP .JPY = .ok 1.51 ∧
    ¬ |(1.51 : ℚ) - 1| ≤ 0.02 := by
  refine ⟨?_, ?_, ?_⟩
  · rw [convert_currency_eval 1 .JPY .GBP (by norm_num) (by decide),
      roundTo_1_JPY_GBP]
  · rw [convert_currency_eval 0.01 .GBP .JPY (by norm_num) (by decide),
      roundTo_001_GBP_JPY]
  · have h : |(1.51 : ℚ) - 1| = 0.51 := by
      rw [abs_of_pos (by norm_num)]
      norm_num
    rw [h]
    norm_num

/-- C8 (amended): a round trip recovers the original amount up to an
error of at most 0.005 per rounding, the first rounding error being
amplified by the rate ratio of the return hop: the total error is at
most 1/200 + 1/200 * (rate a / rate b). -/
theorem round_trip_bound (x : ℚ) (a b : Currency) (y z : ℚ) (hx : 0 ≤ x)
    (h1 : convert_currency x a b = .ok y)
    (h2 : convert_currency y b a = .ok z) :
    |z - x| ≤ 1 / 200 + 1 / 200 * (rate a / rate b) := by
  have hra := rate_pos a
  have hrb := rate_pos b
  have hkpos : 0 < rate a / rate b := div_pos hra hrb
  by_cases hab : a = b
  · subst hab
    rw [convert_currency_self x a (not_lt.mpr hx)] at h1
    have hxy := Except.ok.inj h1
    subst hxy
    rw [convert_currency_self x a (not_lt.mpr hx)] at h2
    have hxz := Except.ok.inj h2
    subst hxz
    simp only [sub_self, abs_zero]
    positivity
  · rw [convert_currency_eval x a b (not_lt.mpr hx) hab] at h1
    have hy := Except.ok.inj h1
    have hy0 : ¬ y < 0 := by
      intro hneg
      rw [convert_currency_neg y b a hneg] at h2
      exact Except.noConfusion h2
    have hba : b ≠ a := fun h => hab h.symm
    rw [convert_currency_eval y b a hy0 hba] at h2
    have hz := Except.ok.inj h2
    have b1 : |y - x / rate a * rate b| ≤ 1 / 200 := by
      have h := abs_roundTo_sub_le 2 (x / rate a * rate b)
      rw [hy] at h
      norm_num at h
      exact h
    have b2 : |z - y / rate b * rate a| ≤ 1 / 200 := by
      have h := abs_roundTo_sub_le 2 (y / rate b * rate a)
      rw [hz] at h
      norm_num at h
      exact h
    have hna : rate a ≠ 0 := ne_of_gt hra
    have hnb : rate b ≠ 0 := ne_of_gt hrb
    have key : z - x = (z - y / rate b * rate a) +
        (y - x / rate a * rate b) * (rate a / rate b) := by
      field_simp
      ring
    rw [key]
    have step1 : |(z - y / rate b * rate a) +
        (y - x / rate a * rate b) * (rate a / rate b)| ≤
        |z - y / rate b * rate a| +
        |y - x / rate a * rate b| * (rate a / rate b) := by
      refine le_trans (abs_add _ _) ?_
      rw [abs_mul, abs_of_pos hkpos]
    refine le_trans step1 ?_
    have step2 : |y - x / rate a * rate b| * (rate a / rate b) ≤
        1 / 200 * (rate a / rate b) :=
      mul_le_mul_of_nonneg_right b1 (le_of_lt hkpos)
    linarith [b2, step2]

theorem round_trip_bound_witness :
    |(1.51 : ℚ) - 1| ≤ 1 / 200 + 1 / 200 * (rate .JPY / rate .GBP) :=
  round_trip_bound 1 .JPY .GBP 0.01 1.51 (by norm_num)
    (by
      rw [convert_currency_eval 1 .JPY .GBP (by norm_num) (by decide),
        roundTo_1_JPY_GBP])
    (by
      rw [convert_currency_eval 0.01 .GBP .JPY (by norm_num) (by decide),
        roundTo_001_GBP_JPY])

/-- C9: converting 100 EUR to USD yields 117.65 with displayed rate
1.1765, and converting 100 USD to EUR yields 85 with displayed rate
0.85, at the function level and through the endpoint. -/
theorem concrete_conversions :
    convert_currency 100 .EUR .USD = .ok 117.65 ∧
    convert_currency 100 .USD .EUR = .ok 85 ∧
    convert_endpoint ⟨100, "EUR", "USD"⟩ =
      .ok ⟨117.65, "EUR", "USD", 1.1765⟩ ∧
    convert_endpoint ⟨100, "USD", "EUR"⟩ =
      .ok ⟨85, "USD", "EUR", 0.85⟩ := by
  refine ⟨?_, ?_, ?_, ?_⟩
  · rw [convert_currency_eval 100 .EUR .USD (by norm_num) (by decide),
      roundTo_100_EUR_USD]
  · rw [convert_currency_eval 100 .USD .EUR (by norm_num) (by decide),
      roundTo_100_USD_EUR]
  · rw [convert_endpoint_eval 100 "EUR" "USD" .EUR .USD (by norm_num)
      rfl rfl]
    simp [Currency.value, roundTo_100_EUR_USD, roundTo_rate_EUR_USD]
  · rw [convert_endpoint_eval 100 "USD" "EUR" .USD .EUR (by norm_num)
      rfl rfl]
    simp [Currency.value, roundTo_100_USD_EUR, roundTo_rate_USD_EUR]

/-- C10: for every amount at least 0 and every pair of supported codes,
both rate-table lookups succeed, the source rate is nonzero, and
`convert_currency` terminates normally with a successful result. -/
theorem conversion_total_safe (x : ℚ) (a b : Currency) (hx : 0 ≤ x) :
    (∃ rf, ratesLookup a.value = some rf ∧ rf ≠ 0) ∧
    (∃ rt, ratesLookup b.value = some rt ∧ rt ≠ 0) ∧
    (∃ v, convert_currency x a b = .ok v) := by
  refine ⟨⟨rate a, ratesLookup_value a, ne_of_gt (rate_pos a)⟩,
    ⟨rate b, ratesLookup_value b, ne_of_gt (rate_pos b)⟩, ?_⟩
  by_cases hab : a = b
  · subst hab
    exact ⟨x, convert_currency_self x a (not_lt.mpr hx)⟩
  · exact ⟨_, convert_currency_eval x a b (not_lt.mpr hx) hab⟩

theorem conversion_total_safe_witness :
    (∃ rf, ratesLookup (Currency.USD).value = some rf ∧ rf ≠ 0) ∧
    (∃ rt, ratesLookup (Currency.EUR).value = some rt ∧ rt ≠ 0) ∧
    (∃ v, convert_currency 1 .USD .EUR = .ok v) :=
  conversion_total_safe 1 .USD .EUR (by norm_num)
